import Mathlib

/-!
Verification of the churchtools/extension-boilerplate event-bus and
lifecycle contract, together with the admin entry point's key-value
settings logic.

The repository ships contract type declarations (`ExtensionInstance`,
`ExtensionContext`, `EntryPoint` in the docs) and example entry points;
the bus/lifecycle implementation itself lives on the host side and is
not part of `src/`, so the bus and lifecycle manager below are modelled
from the specification's §3–§4.  The admin entry point
(`getOrCreateExtensionModule`, `saveBackgroundColor`,
`loadBackgroundColor`) is embedded from the repository source.
-/

/-- Argument values carried by events.  Event payloads in the source are
untyped (`...data: any[]`); a wildcard handler additionally receives the
event name (a string) as its first argument, so strings must be
representable among values. -/
inductive Val : Type where
  | str (s : String)
  | num (n : Int)
deriving DecidableEq, Repr

/-- Modelled from the spec: a registered event handler callback.  The
missing host-side bus stores opaque callables; the model identifies a
callable by a numeric id `hid` (function identity, used by `off`) and
records as `throws` whether invoking it throws. -/
structure Handler : Type where
  hid : Nat
  throws : Bool
deriving DecidableEq, Repr

/-- Modelled from the spec: the per-instance event bus state, "a mapping
from event name to ordered list of registered handler callbacks
(insertion order preserved; ... duplicates are distinct registrations)",
kept as the flat registration list in registration order. -/
structure Bus : Type where
  registrations : List (String × Handler)
deriving DecidableEq, Repr

/-- The ordered list of handlers currently registered for event name
`n`, in registration order. -/
def handlersFor (b : Bus) (n : String) : List Handler :=
  (b.registrations.filter (fun p => p.1 = n)).map Prod.snd

/-- Modelled from the spec: `on(eventName, handler)` "appends `handler`
to the list for `eventName`". -/
def onBus (b : Bus) (n : String) (h : Handler) : Bus :=
  { registrations := b.registrations ++ [(n, h)] }

/-- Removes the first registration matching both the event name and the
handler identity; the rest of the list is unchanged. -/
def removeFirstReg : List (String × Handler) → String → Nat → List (String × Handler)
  | [], _, _ => []
  | (m, h) :: rest, n, hid =>
      if m = n ∧ h.hid = hid then rest
      else (m, h) :: removeFirstReg rest n hid

/-- Modelled from the spec: `off(eventName, handler)` "removes the first
... matching occurrence of `handler` from `eventName`'s list.  No-op,
not an error, if the handler is not found." -/
def offBus (b : Bus) (n : String) (hid : Nat) : Bus :=
  { registrations := removeFirstReg b.registrations n hid }

/-- The outcome of one `emit` call: the ordered list of handler
invocations actually performed (handler id together with the exact
argument list passed to it), and the ids of handlers whose invocation
threw, as reported to the error channel. -/
structure EmitResult : Type where
  invocations : List (Nat × List Val)
  errors : List Nat
deriving DecidableEq, Repr

/-- Modelled from the spec: the dispatch loop over one handler list.
Each invocation is wrapped so a throwing handler is recorded on the
error channel and the loop continues with the remaining handlers. -/
def runHandlers (args : List Val) : List Handler → List (Nat × List Val) × List Nat
  | [] => ([], [])
  | h :: hs =>
      let r := runHandlers args hs
      ((h.hid, args) :: r.1, if h.throws then h.hid :: r.2 else r.2)

/-- The full dispatch list of one `emit` of `n`: exact-name handlers
first, then wildcard handlers. -/
def dispatchList (b : Bus) (n : String) : List Handler :=
  handlersFor b n ++ handlersFor b "*"

/-- Modelled from the spec: `emit(eventName, ...args)` "invokes,
synchronously and in registration order, every handler registered for
`eventName`, then every handler registered for `*` (passing `eventName`
as the first argument to wildcard handlers followed by `args`)".  The
function is total: no handler failure propagates to the caller. -/
def emitBus (b : Bus) (n : String) (args : List Val) : EmitResult :=
  let exact := runHandlers args (handlersFor b n)
  let wild := runHandlers (Val.str n :: args) (handlersFor b "*")
  { invocations := exact.1 ++ wild.1, errors := exact.2 ++ wild.2 }

/-- Number of invocations of handler id `hid` in one emit result. -/
def invCount (hid : Nat) (r : EmitResult) : Nat :=
  r.invocations.countP (fun p => p.1 = hid)

/-- Number of registrations of handler id `hid` in a handler list. -/
def regCount (hid : Nat) (hs : List Handler) : Nat :=
  hs.countP (fun h => h.hid = hid)

theorem runHandlers_fst (args : List Val) (hs : List Handler) :
    (runHandlers args hs).1 = hs.map (fun h => (h.hid, args)) := by
  induction hs with
  | nil => rfl
  | cons h t ih => simp [runHandlers, ih]

theorem runHandlers_snd (args : List Val) (hs : List Handler) :
    (runHandlers args hs).2 = (hs.filter (fun h => h.throws)).map Handler.hid := by
  induction hs with
  | nil => rfl
  | cons h t ih =>
      by_cases hth : h.throws <;> simp [runHandlers, ih, hth]

theorem emitBus_invocations (b : Bus) (n : String) (args : List Val) :
    (emitBus b n args).invocations =
      (handlersFor b n).map (fun h => (h.hid, args)) ++
        (handlersFor b "*").map (fun h => (h.hid, Val.str n :: args)) := by
  simp [emitBus, runHandlers_fst]

theorem emitBus_errors (b : Bus) (n : String) (args : List Val) :
    (emitBus b n args).errors =
      ((handlersFor b n).filter (fun h => h.throws)).map Handler.hid ++
        ((handlersFor b "*").filter (fun h => h.throws)).map Handler.hid := by
  simp [emitBus, runHandlers_snd]

/-- The payload a handler at position `j` of the dispatch list receives:
exact-name handlers get `args`, wildcard handlers get the event name
prepended. -/
def payloadAt (b : Bus) (n : String) (args : List Val) (j : Nat) : List Val :=
  if j < (handlersFor b n).length then args else Val.str n :: args

/-- C1: `emit(N, ...args)` invokes every handler currently registered
for `N`, in registration order, passing exactly `args`; the invocation
list is produced synchronously by the single `emit` call. -/
theorem emit_invokes_registered_in_order (b : Bus) (n : String) (args : List Val) :
    (emitBus b n args).invocations.take (handlersFor b n).length
      = (handlersFor b n).map (fun h => (h.hid, args)) := by
  rw [emitBus_invocations]
  exact List.take_left' (by simp)

/-- C5: every wildcard handler is invoked on every `emit`, receiving the
event name as first argument followed by `args`, and all exact-name
handlers run before the wildcard handlers within the same emit (the
invocation list splits as exact-name block then wildcard block). -/
theorem wildcard_receives_all_events (b : Bus) (n : String) (args : List Val) :
    (emitBus b n args).invocations.drop (handlersFor b n).length
      = (handlersFor b "*").map (fun h => (h.hid, Val.str n :: args))
    ∧ (emitBus b n args).invocations.take (handlersFor b n).length
      = (handlersFor b n).map (fun h => (h.hid, args)) := by
  rw [emitBus_invocations]
  exact ⟨List.drop_left' (by simp), List.take_left' (by simp)⟩

theorem invocations_get? (b : Bus) (n : String) (args : List Val) (j : Nat) :
    (emitBus b n args).invocations.get? j
      = ((dispatchList b n).get? j).map (fun h => (h.hid, payloadAt b n args j)) := by
  rw [emitBus_invocations, dispatchList, payloadAt]
  by_cases hj : j < (handlersFor b n).length
  · rw [List.get?_append (by simpa using hj), List.get?_append (by simpa using hj),
      List.get?_map, if_pos hj]
  · rw [List.get?_append_right (by simpa using hj), List.get?_append_right (by simpa using hj),
      List.get?_map, if_neg hj]
    simp

/-- C2: if the handler at position `i` of the dispatch list throws, its
failure is reported on the error channel, and every handler after
position `i` is still invoked with its payload during the same emit
call; `emitBus` is a total function, so no exception reaches the
caller of emit. -/
theorem throwing_handler_isolated (b : Bus) (n : String) (args : List Val)
    (i : Nat) (hi : i < (dispatchList b n).length)
    (hthrows : ((dispatchList b n).get ⟨i, hi⟩).throws = true) :
    ((dispatchList b n).get ⟨i, hi⟩).hid ∈ (emitBus b n args).errors
    ∧ ∀ j, i < j → j < (dispatchList b n).length →
        ∃ h', (dispatchList b n).get? j = some h'
          ∧ (emitBus b n args).invocations.get? j = some (h'.hid, payloadAt b n args j) := by
  constructor
  · have hmem : (dispatchList b n).get ⟨i, hi⟩ ∈ dispatchList b n := List.get_mem _ _ _
    simp only [dispatchList] at hmem
    rw [emitBus_errors]
    rcases List.mem_append.mp hmem with hcase | hcase
    · exact List.mem_append_left _
        (List.mem_map_of_mem _ (List.mem_filter.mpr ⟨hcase, by simpa using hthrows⟩))
    · exact List.mem_append_right _
        (List.mem_map_of_mem _ (List.mem_filter.mpr ⟨hcase, by simpa using hthrows⟩))
  · intro j _ hj
    refine ⟨(dispatchList b n).get ⟨j, hj⟩, List.get?_eq_get hj, ?_⟩
    rw [invocations_get?, List.get?_eq_get hj, Option.map_some']

/-- Removes the first handler with the given id from a handler list. -/
def removeFirstHid : List Handler → Nat → List Handler
  | [], _ => []
  | h :: hs, hid => if h.hid = hid then hs else h :: removeFirstHid hs hid

theorem handlersFor_offBus_self (b : Bus) (n : String) (hid : Nat) :
    handlersFor (offBus b n hid) n = removeFirstHid (handlersFor b n) hid := by
  rcases b with ⟨l⟩
  induction l with
  | nil => rfl
  | cons p t ih =>
      rcases p with ⟨m, h⟩
      by_cases hm : m = n
      · subst hm
        by_cases hh : h.hid = hid
        · simp [handlersFor, offBus, removeFirstReg, removeFirstHid, hh]
        · simpa [handlersFor, offBus, removeFirstReg, removeFirstHid, hh] using ih
      · simpa [handlersFor, offBus, removeFirstReg, removeFirstHid, hm] using ih

theorem handlersFor_offBus_other (b : Bus) (n m : String) (hid : Nat) (hnm : m ≠ n) :
    handlersFor (offBus b n hid) m = handlersFor b m := by
  rcases b with ⟨l⟩
  induction l with
  | nil => rfl
  | cons p t ih =>
      rcases p with ⟨q, h⟩
      have ih' : List.map Prod.snd (List.filter (fun p => decide (p.1 = m)) (removeFirstReg t n hid))
          = List.map Prod.snd (List.filter (fun p => decide (p.1 = m)) t) := by
        simpa [handlersFor, offBus] using ih
      by_cases hc : q = n ∧ h.hid = hid
      · have hq : ¬(q = m) := fun he => hnm (he ▸ hc.1)
        simp only [handlersFor, offBus, removeFirstReg, if_pos hc]
        simp [hq]
      · simp only [handlersFor, offBus, removeFirstReg, if_neg hc]
        by_cases hq : q = m <;> simp [hq, ih']

theorem removeFirstHid_count (hs : List Handler) (hid : Nat)
    (hmem : 0 < regCount hid hs) :
    regCount hid (removeFirstHid hs hid) = regCount hid hs - 1 := by
  induction hs with
  | nil => simp [regCount] at hmem
  | cons h t ih =>
      by_cases hh : h.hid = hid
      · simp [removeFirstHid, regCount, hh, List.countP_cons]
      · have hm : 0 < regCount hid t := by
          simpa [regCount, List.countP_cons, hh] using hmem
        have ht := ih hm
        simp only [removeFirstHid, if_neg hh]
        simp only [regCount, List.countP_cons] at ht ⊢
        simp [hh, ht]

theorem removeFirstReg_id (l : List (String × Handler)) (n : String) (hid : Nat)
    (hnone : ∀ p ∈ l, ¬(p.1 = n ∧ p.2.hid = hid)) :
    removeFirstReg l n hid = l := by
  induction l with
  | nil => rfl
  | cons p t ih =>
      rcases p with ⟨m, h⟩
      have hp := hnone (m, h) (List.mem_cons_self _ t)
      rw [removeFirstReg, if_neg hp, ih (fun q hq => hnone q (List.mem_cons_of_mem _ hq))]

theorem offBus_not_registered (b : Bus) (n : String) (hid : Nat)
    (habs : hid ∉ (handlersFor b n).map Handler.hid) :
    offBus b n hid = b := by
  rcases b with ⟨l⟩
  have hnone : ∀ p ∈ l, ¬(p.1 = n ∧ p.2.hid = hid) := by
    intro p hp hand
    apply habs
    simp only [handlersFor, List.map_map, List.mem_map, List.mem_filter]
    exact ⟨p, ⟨hp, by simp [hand.1]⟩, hand.2⟩
  exact congrArg Bus.mk (removeFirstReg_id l n hid hnone)

theorem invCount_emitBus (b : Bus) (n : String) (args : List Val) (hid : Nat) :
    invCount hid (emitBus b n args)
      = regCount hid (handlersFor b n) + regCount hid (handlersFor b "*") := by
  rw [invCount, emitBus_invocations, List.countP_append, List.countP_map, List.countP_map]
  rfl

/-- C7: removing a handler's only registration for `N` means a
subsequent `emit(N, ...)` never invokes it; and `off` for a handler id
not registered for the given name leaves the bus unchanged (a no-op
that cannot throw, since `offBus` is total). -/
theorem off_removes_registration (b : Bus) (n : String) (hid : Nat) (args : List Val)
    (h1 : regCount hid (handlersFor b n) = 1)
    (h2 : n = "*" ∨ regCount hid (handlersFor b "*") = 0) :
    invCount hid (emitBus (offBus b n hid) n args) = 0
    ∧ ∀ m hid2, hid2 ∉ (handlersFor b m).map Handler.hid → offBus b m hid2 = b := by
  refine ⟨?_, fun m hid2 habs => offBus_not_registered b m hid2 habs⟩
  rw [invCount_emitBus]
  rcases h2 with hw | hw
  · subst hw
    rw [handlersFor_offBus_self, removeFirstHid_count _ _ (by omega), h1]
  · have hne : "*" ≠ n := by
      intro he
      rw [he] at hw
      omega
    rw [handlersFor_offBus_self, handlersFor_offBus_other b n "*" hid hne,
      removeFirstHid_count _ _ (by omega), h1, hw]

theorem handlersFor_onBus (b : Bus) (n m : String) (h : Handler) :
    handlersFor (onBus b n h) m = handlersFor b m ++ (if n = m then [h] else []) := by
  by_cases hnm : n = m <;>
    simp [handlersFor, onBus, List.filter_append, hnm]

theorem regCount_eq_zero_of_fresh (b : Bus) (m : String) (hid : Nat)
    (hfresh : ∀ p ∈ b.registrations, p.2.hid ≠ hid) :
    regCount hid (handlersFor b m) = 0 := by
  rw [regCount, List.countP_eq_zero]
  intro a ha
  simp only [handlersFor, List.mem_map, List.mem_filter] at ha
  obtain ⟨p, ⟨hp, _⟩, rfl⟩ := ha
  simpa using hfresh p hp

/-- C8: registering the same handler twice for the same name is not an
error (`onBus` is total) and creates two distinct registrations, so an
`emit` of that name invokes the handler exactly twice. -/
theorem duplicate_registration_invoked_twice (b : Bus) (n : String) (h : Handler)
    (args : List Val) (hn : n ≠ "*")
    (hfresh : ∀ p ∈ b.registrations, p.2.hid ≠ h.hid) :
    regCount h.hid (handlersFor (onBus (onBus b n h) n h) n) = 2
    ∧ invCount h.hid (emitBus (onBus (onBus b n h) n h) n args) = 2 := by
  have hself : regCount h.hid (handlersFor (onBus (onBus b n h) n h) n) = 2 := by
    rw [handlersFor_onBus, handlersFor_onBus, if_pos rfl]
    have h0 := regCount_eq_zero_of_fresh b n h.hid hfresh
    simp only [regCount, List.countP_append] at h0 ⊢
    rw [h0]
    simp [List.countP_cons]
  have hwild : regCount h.hid (handlersFor (onBus (onBus b n h) n h) "*") = 0 := by
    rw [handlersFor_onBus, handlersFor_onBus, if_neg hn]
    simpa using regCount_eq_zero_of_fresh b "*" h.hid hfresh
  refine ⟨hself, ?_⟩
  rw [invCount_emitBus, hself, hwild]

/-- Modelled from the spec: the cleanup callback captured from the entry
point's return value.  `cid` is the callable's identity; `fails` records
whether invoking (or awaiting) it throws/rejects. -/
structure Cleanup : Type where
  cid : Nat
  fails : Bool
deriving DecidableEq, Repr

/-- Modelled from the spec: the lifecycle state machine
Unloaded → Loaded → Running → Destroyed, with a failed activation
recorded separately. -/
inductive LifecycleState : Type where
  | Unloaded
  | Loaded
  | Running
  | Destroyed
  | Failed
deriving DecidableEq, Repr

/-- Modelled from the spec: the observable behaviour of one entry-point
function (the missing host-side `renderExtension` invokes it with a
context object).  `throwsOnInvoke` records a synchronous throw during
invocation; `cleanup` is the callable returned (if any); `registers` are
the handler registrations it performs through the context's `on`. -/
structure EntryPointModel : Type where
  throwsOnInvoke : Bool
  cleanup : Option Cleanup
  registers : List (String × Handler)
deriving DecidableEq, Repr

/-- Modelled from the spec: one running extension instance: its
lifecycle state, its event bus, and the captured cleanup callback. -/
structure Instance : Type where
  state : LifecycleState
  bus : Bus
  cleanup : Option Cleanup
deriving DecidableEq, Repr

/-- The host-visible outcome of a `mount` call: the instance when
activation succeeded, and whether an activation failure was reported to
the host (rather than propagated as an exception — `mount` is total). -/
structure MountResult : Type where
  inst? : Option Instance
  reportedActivationFailure : Bool
deriving DecidableEq, Repr

/-- Modelled from the spec: `mount(entryPointFn, initialData)` invokes
the entry point with the bus-bound context; if it throws, no instance is
running and no cleanup is registered, and the failure is reported to the
host; otherwise the returned callable (if any) is captured as the
cleanup callback and the instance is Running. -/
def mount (ep : EntryPointModel) : MountResult :=
  if ep.throwsOnInvoke then
    { inst? := none, reportedActivationFailure := true }
  else
    { inst? := some { state := LifecycleState.Running,
                      bus := { registrations := ep.registers },
                      cleanup := ep.cleanup },
      reportedActivationFailure := false }

/-- One observable step of a teardown, in the order performed. -/
inductive TeardownStep : Type where
  | removeHandlers
  | invokeCleanup (cid : Nat)
  | reportCleanupError (cid : Nat)
deriving DecidableEq, Repr

/-- Modelled from the spec: `destroy(instanceHandle)` removes all
registered handlers first, then invokes the captured cleanup callback if
present (awaiting it), reporting — not propagating — any cleanup error;
a second destroy of an already-Destroyed instance is a no-op.  Returns
the new instance state and the ordered trace of teardown steps. -/
def destroy (inst : Instance) : Instance × List TeardownStep :=
  if inst.state = LifecycleState.Destroyed then (inst, [])
  else
    match inst.cleanup with
    | none =>
        ({ state := LifecycleState.Destroyed, bus := { registrations := [] },
           cleanup := inst.cleanup },
         [TeardownStep.removeHandlers])
    | some c =>
        ({ state := LifecycleState.Destroyed, bus := { registrations := [] },
           cleanup := inst.cleanup },
         [TeardownStep.removeHandlers, TeardownStep.invokeCleanup c.cid]
           ++ (if c.fails then [TeardownStep.reportCleanupError c.cid] else []))

/-- The instance after `n` successive destroy calls. -/
def destroyN : Nat → Instance → Instance
  | 0, i => i
  | n + 1, i => destroyN n (destroy i).1

/-- The concatenated teardown traces of `n` successive destroy calls. -/
def destroyTraces : Nat → Instance → List TeardownStep
  | 0, _ => []
  | n + 1, i => (destroy i).2 ++ destroyTraces n (destroy i).1

/-- Whether a teardown step is a cleanup-callback invocation. -/
def isInvokeStep : TeardownStep → Bool
  | TeardownStep.invokeCleanup _ => true
  | _ => false

theorem destroy_of_destroyed (i : Instance) (h : i.state = LifecycleState.Destroyed) :
    destroy i = (i, []) := by
  rw [destroy, if_pos h]

theorem destroyTraces_of_destroyed (n : Nat) (i : Instance)
    (h : i.state = LifecycleState.Destroyed) : destroyTraces n i = [] := by
  induction n with
  | zero => rfl
  | succ k ih =>
      rw [destroyTraces, destroy_of_destroyed i h]
      simpa using ih

theorem destroy_state (i : Instance) (h : i.state = LifecycleState.Running) :
    (destroy i).1.state = LifecycleState.Destroyed := by
  rw [destroy, if_neg (by rw [h]; intro hc; cases hc)]
  cases i.cleanup <;> rfl

theorem destroyN_succ (n : Nat) (i : Instance) :
    destroyN (n + 1) i = (destroy (destroyN n i)).1 := by
  induction n generalizing i with
  | zero => rfl
  | succ k ih =>
      rw [destroyN, ih ((destroy i).1)]
      rfl

theorem destroyN_of_destroyed (n : Nat) (i : Instance)
    (h : i.state = LifecycleState.Destroyed) : destroyN n i = i := by
  induction n with
  | zero => rfl
  | succ k ih =>
      rw [destroyN, destroy_of_destroyed i h]
      exact ih

/-- C3: for a mounted instance whose entry point returned a cleanup
callback, any number `n ≥ 1` of destroy calls invokes the captured
cleanup callback exactly once across all of them, and every destroy call
after the first is a no-op with an empty teardown trace (so it neither
re-invokes the callback nor reports an error — and `destroy` is total,
so it cannot throw). -/
theorem destroy_idempotent_cleanup_once (ep : EntryPointModel) (c : Cleanup)
    (inst : Instance) (hm : (mount ep).inst? = some inst) (hc : ep.cleanup = some c)
    (n : Nat) (hn : 1 ≤ n) :
    (destroyTraces n inst).countP isInvokeStep = 1
    ∧ ∀ m, 1 ≤ m → (destroy (destroyN m inst)).2 = [] := by
  have hep : ep.throwsOnInvoke = false := by
    by_contra habs
    rw [mount, if_pos (by simpa using habs)] at hm
    cases hm
  rw [mount, if_neg (by simp [hep])] at hm
  have hinst : inst = Instance.mk LifecycleState.Running (Bus.mk ep.registers) ep.cleanup := by
    cases hm
    rfl
  have hrun : inst.state = LifecycleState.Running := by rw [hinst]
  have hdest : (destroy inst).1.state = LifecycleState.Destroyed := destroy_state inst hrun
  have htrace1 : ((destroy inst).2).countP isInvokeStep = 1 := by
    rw [destroy, if_neg (by rw [hrun]; intro hcon; cases hcon), hinst]
    simp only [hc]
    by_cases hf : c.fails <;> simp [hf, List.countP_cons, isInvokeStep]
  constructor
  · obtain ⟨k, rfl⟩ : ∃ k, n = k + 1 := ⟨n - 1, by omega⟩
    rw [destroyTraces, destroyTraces_of_destroyed k _ hdest, List.countP_append]
    simpa using htrace1
  · intro m hm1
    obtain ⟨k, rfl⟩ : ∃ k, m = k + 1 := ⟨m - 1, by omega⟩
    have hstate : (destroyN (k + 1) inst).state = LifecycleState.Destroyed := by
      rw [destroyN, destroyN_of_destroyed k _ hdest]
      exact hdest
    rw [destroy_of_destroyed _ hstate]

/-- C4: destroying a Running instance with a captured cleanup callback
first removes all registered handlers and only then invokes the
callback (the trace begins with removal followed by the invocation);
the resulting instance has an empty handler table and is Destroyed even
when the cleanup callback fails, and the cleanup error is reported
exactly when the callback fails — never propagated, since `destroy`
returns normally. -/
theorem destroy_removes_handlers_before_cleanup (inst : Instance) (c : Cleanup)
    (hrun : inst.state = LifecycleState.Running) (hc : inst.cleanup = some c) :
    (destroy inst).2.take 2 = [TeardownStep.removeHandlers, TeardownStep.invokeCleanup c.cid]
    ∧ (destroy inst).1.bus.registrations = []
    ∧ (destroy inst).1.state = LifecycleState.Destroyed
    ∧ (TeardownStep.reportCleanupError c.cid ∈ (destroy inst).2 ↔ c.fails = true) := by
  rw [destroy, if_neg (by rw [hrun]; intro hcon; cases hcon), hc]
  by_cases hf : c.fails <;> simp [hf]

/-- C6: when the entry-point function throws synchronously during
mount, no instance (hence no cleanup callback) is stored, the instance
is not running, and the failure is reported to the host as an
activation failure; `mount` returns normally, so nothing propagates as
an unhandled exception. -/
theorem mount_activation_failure (ep : EntryPointModel)
    (hthrow : ep.throwsOnInvoke = true) :
    (mount ep).inst? = none ∧ (mount ep).reportedActivationFailure = true := by
  rw [mount, if_pos hthrow]
  exact ⟨rfl, rfl⟩

/-- One JSON-escaped character: the quote and the backslash are escaped
with a backslash, other characters are kept verbatim (the control-code
escape sequences of full JSON are not needed for the admin settings
values and are not modelled). -/
def escChar (ch : Char) : List Char :=
  if ch = '"' ∨ ch = '\\' then ['\\', ch] else [ch]

/-- JSON string-escaping of a character list. -/
def escapeList (s : List Char) : List Char :=
  s.foldr (fun c acc => escChar c ++ acc) []

/-- Reads the body of a JSON string up to its closing quote, undoing
`escChar`; returns the decoded content together with the input
remaining after the closing quote. -/
def unquote : List Char → Option (List Char × List Char)
  | [] => none
  | c :: rest =>
    if c = '\\' then
      match rest with
      | [] => none
      | d :: rest2 =>
        match unquote rest2 with
        | none => none
        | some (s, r) => some (d :: s, r)
    else if c = '"' then some ([], rest)
    else
      match unquote rest with
      | none => none
      | some (s, r) => some (c :: s, r)

theorem unquote_quote (r : List Char) : unquote ('"' :: r) = some ([], r) := by
  rw [unquote.eq_def]
  dsimp only
  rw [if_neg (by decide), if_pos rfl]

theorem unquote_bslash (d : Char) (rest : List Char) :
    unquote ('\\' :: d :: rest)
      = match unquote rest with
        | none => none
        | some (s, r) => some (d :: s, r) := by
  rw [unquote, if_pos rfl]

theorem unquote_other (c : Char) (hq : ¬c = '"') (hb : ¬c = '\\') (rest : List Char) :
    unquote (c :: rest)
      = match unquote rest with
        | none => none
        | some (s, r) => some (c :: s, r) := by
  rw [unquote.eq_def]
  dsimp only
  rw [if_neg hb, if_neg hq]

theorem unquote_escape (s r : List Char) :
    unquote (escapeList s ++ '"' :: r) = some (s, r) := by
  induction s with
  | nil =>
      simp only [escapeList, List.foldr_nil, List.nil_append]
      exact unquote_quote r
  | cons ch t ih =>
      have hesc : escapeList (ch :: t) ++ '"' :: r
          = escChar ch ++ (escapeList t ++ '"' :: r) := by
        simp [escapeList, List.append_assoc]
      rw [hesc]
      by_cases h1 : ch = '"' ∨ ch = '\\'
      · rw [escChar, if_pos h1]
        rw [show (['\\', ch] : List Char) ++ (escapeList t ++ '"' :: r)
            = '\\' :: ch :: (escapeList t ++ '"' :: r) from rfl]
        rw [unquote_bslash, ih]
      · push_neg at h1
        rw [escChar, if_neg (by push_neg; exact h1), List.singleton_append]
        rw [unquote_other ch h1.1 h1.2, ih]

/-- The opening characters of the serialized settings object. -/
def lead1 : List Char := "\x7b\"key\":\"".data

/-- The characters between the key field's closing quote and the value
field's opening quote. -/
def lead2 : List Char := ",\"value\":\"".data

/-- Embedded from `saveBackgroundColor`:
`JSON.stringify({ key: ..., value: ... })` for two string fields in
source order. -/
def stringifyKV (k v : String) : String :=
  String.mk (lead1 ++ (escapeList k.data ++ '"' :: (lead2 ++ (escapeList v.data ++ '"' :: ['\x7d']))))

/-- Consumes an expected fixed sequence of leading characters. -/
def afterLead : List Char → List Char → Option (List Char)
  | [], cs => some cs
  | _ :: _, [] => none
  | p :: ps, c :: cs => if c = p then afterLead ps cs else none

/-- Modelled JSON.parse for the fragment `stringifyKV` produces: accepts
exactly an object with string fields key and value in that order and
returns them decoded; any other input yields none (the source wraps
`JSON.parse` in try/catch and treats failures as a non-match). -/
def parseKV (s : String) : Option (String × String) :=
  match afterLead lead1 s.data with
  | none => none
  | some r1 =>
    match unquote r1 with
    | none => none
    | some (k, r2) =>
      match afterLead lead2 r2 with
      | none => none
      | some r3 =>
        match unquote r3 with
        | none => none
        | some (v, r4) =>
          if r4 = ['\x7d'] then some (String.mk k, String.mk v) else none

theorem afterLead_append (p r : List Char) : afterLead p (p ++ r) = some r := by
  induction p with
  | nil => rfl
  | cons c cs ih =>
      rw [List.cons_append, afterLead, if_pos rfl]
      exact ih

theorem parseKV_stringifyKV (k v : String) :
    parseKV (stringifyKV k v) = some (k, v) := by
  have h1 : (stringifyKV k v).data
      = lead1 ++ (escapeList k.data ++ '"' :: (lead2 ++ (escapeList v.data ++ '"' :: ['\x7d']))) := rfl
  simp only [parseKV, h1, afterLead_append, unquote_escape]
  simp

/-- A value row of the ChurchTools custom-module key-value store
(`CustomModuleDataValue` in `src/utils/ct-types`): its id and raw
string value field, the two fields the admin entry point reads. -/
structure CustomModuleDataValue : Type where
  id : Nat
  value : String
deriving DecidableEq, Repr

/-- The admin entry point's closure state relevant to settings:
`extensionModule` and `settingsCategory` (their server ids when
initialized), the tracked `backgroundColorValue` row,
`currentBackgroundColor`, and the settings category's value list as the
store would return it on the next GET. -/
structure AdminState : Type where
  extensionModule : Option Nat
  settingsCategory : Option Nat
  backgroundColorValue : Option CustomModuleDataValue
  currentBackgroundColor : String
  store : List CustomModuleDataValue
deriving DecidableEq, Repr

/-- Embedded from `loadBackgroundColor`: the find predicate — parse the
row's value as JSON and test whether its key field is
backgroundColor (parse failures are treated as non-matches). -/
def isBackgroundColorEntry (v : CustomModuleDataValue) : Bool :=
  match parseKV v.value with
  | some (k, _) => k = "backgroundColor"
  | none => false

/-- Embedded from `loadBackgroundColor` in the admin entry point:
fetches the category's values, finds the first row whose parsed key is
backgroundColor and, when found, records the row and sets the current
color to the parsed value field, defaulting to #ffffff when that value
is falsy (the empty string). -/
def loadBackgroundColor (st : AdminState) : AdminState :=
  match st.store.find? isBackgroundColorEntry with
  | some v =>
    match parseKV v.value with
    | some (_, val) =>
      { st with backgroundColorValue := some v,
                currentBackgroundColor := if val = "" then "#ffffff" else val }
    | none => { st with backgroundColorValue := some v }
  | none => st

/-- Embedded from `saveBackgroundColor` in the admin entry point:
requires an initialized module and category (otherwise it throws
"Extension not initialized"), serializes the color as
`JSON.stringify({ key: 'backgroundColor', value: color })`, then either
updates the tracked row in place (PUT) or creates a new row appended to
the category (POST, with `freshId` the id the server assigns), records
the row, and sets the current color. -/
def saveBackgroundColor (color : String) (st : AdminState) (freshId : Nat) :
    Except String AdminState :=
  match st.extensionModule, st.settingsCategory with
  | some _, some _ =>
    let valueData := stringifyKV "backgroundColor" color
    match st.backgroundColorValue with
    | some bv =>
      Except.ok { st with
        store := st.store.map (fun v => if v.id = bv.id then { v with value := valueData } else v),
        backgroundColorValue := some { bv with value := valueData },
        currentBackgroundColor := color }
    | none =>
      Except.ok { st with
        store := st.store ++ [{ id := freshId, value := valueData }],
        backgroundColorValue := some { id := freshId, value := valueData },
        currentBackgroundColor := color }
  | _, _ => Except.error "Extension not initialized"

/-- Consistency between the tracked `backgroundColorValue` row and the
store, as established by the initialize flow: when a row is tracked it
exists in the store and is the only row parsing to key backgroundColor;
when none is tracked, no row parses to that key.  This captures the
claim's premise that the store returns the value that was written. -/
def storeConsistent (st : AdminState) : Bool :=
  match st.backgroundColorValue with
  | none => st.store.all (fun v => !(isBackgroundColorEntry v))
  | some bv =>
      st.store.any (fun w => w.id = bv.id)
        && st.store.all (fun v => v.id = bv.id || !(isBackgroundColorEntry v))

theorem find?_put (l : List CustomModuleDataValue) (bid : Nat) (nv : String)
    (hmem : l.any (fun w => w.id = bid) = true)
    (hothers : l.all (fun v => v.id = bid || !(isBackgroundColorEntry v)) = true)
    (hnv : ∀ i, isBackgroundColorEntry { id := i, value := nv } = true) :
    ∃ w, (l.map (fun v => if v.id = bid then { v with value := nv } else v)).find?
          isBackgroundColorEntry = some w
      ∧ w.value = nv := by
  induction l with
  | nil => simp at hmem
  | cons v t ih =>
      simp only [List.any_cons, Bool.or_eq_true] at hmem
      simp only [List.all_cons, Bool.and_eq_true] at hothers
      by_cases hv : v.id = bid
      · refine ⟨{ v with value := nv }, ?_, rfl⟩
        simp only [List.map_cons, if_pos hv]
        exact List.find?_cons_of_pos _ (hnv v.id)
      · have hmem' : t.any (fun w => w.id = bid) = true := by
          rcases hmem with h | h
          · exact absurd (by simpa using h) hv
          · exact h
        have hnb : isBackgroundColorEntry v = false := by
          have h1 := hothers.1
          rcases Bool.or_eq_true _ _ |>.mp h1 with h | h
          · exact absurd (by simpa using h) hv
          · simpa using h
        obtain ⟨w, hw1, hw2⟩ := ih hmem' hothers.2
        refine ⟨w, ?_, hw2⟩
        simp only [List.map_cons, if_neg hv]
        rw [List.find?_cons_of_neg _ (by simp [hnb])]
        exact hw1

theorem find?_append_new (l : List CustomModuleDataValue) (x : CustomModuleDataValue)
    (hall : l.all (fun v => !(isBackgroundColorEntry v)) = true)
    (hx : isBackgroundColorEntry x = true) :
    (l ++ [x]).find? isBackgroundColorEntry = some x := by
  induction l with
  | nil =>
      simp only [List.nil_append]
      exact List.find?_cons_of_pos _ hx
  | cons v t ih =>
      simp only [List.all_cons, Bool.and_eq_true] at hall
      have hvf : isBackgroundColorEntry v = false := by simpa using hall.1
      rw [List.cons_append, List.find?_cons_of_neg _ (by simp [hvf])]
      exact ih hall.2

/-- C9: with module and category initialized, a consistent store, and a
non-empty color string, `saveBackgroundColor` succeeds, the stored
tracked row's value is exactly `JSON.stringify` of the key/value
object, and a subsequent `loadBackgroundColor` finds that row and sets
`currentBackgroundColor` back to the saved color. -/
theorem save_then_load_roundtrip (st : AdminState) (c : String) (fid : Nat)
    (hc : c ≠ "")
    (hm : st.extensionModule.isSome = true)
    (hcat : st.settingsCategory.isSome = true)
    (hcons : storeConsistent st = true) :
    ∃ st', saveBackgroundColor c st fid = Except.ok st'
      ∧ st'.backgroundColorValue.map CustomModuleDataValue.value
          = some (stringifyKV "backgroundColor" c)
      ∧ (loadBackgroundColor st').backgroundColorValue.map CustomModuleDataValue.value
          = some (stringifyKV "backgroundColor" c)
      ∧ (loadBackgroundColor st').currentBackgroundColor = c := by
  have hbgAll : ∀ i, isBackgroundColorEntry
      { id := i, value := stringifyKV "backgroundColor" c } = true := by
    intro i
    simp [isBackgroundColorEntry, parseKV_stringifyKV]
  rcases st with ⟨em, sc, bcv, cur, store⟩
  rcases em with _ | mId
  · simp at hm
  rcases sc with _ | scId
  · simp at hcat
  rcases bcv with _ | bv
  · have hall : store.all (fun v => !(isBackgroundColorEntry v)) = true := by
      simpa [storeConsistent] using hcons
    refine ⟨_, rfl, ?_, ?_, ?_⟩
    · rfl
    · simp only [loadBackgroundColor,
        find?_append_new store _ hall (hbgAll fid), parseKV_stringifyKV]
      rfl
    · simp only [loadBackgroundColor,
        find?_append_new store _ hall (hbgAll fid), parseKV_stringifyKV]
      simp [hc]
  · have hcons' := hcons
    simp only [storeConsistent, Bool.and_eq_true] at hcons'
    obtain ⟨w, hw1, hw2⟩ := find?_put store bv.id (stringifyKV "backgroundColor" c)
      hcons'.1 hcons'.2 hbgAll
    refine ⟨_, rfl, ?_, ?_, ?_⟩
    · simp [hw2]
    · simp only [loadBackgroundColor, hw1]
      simp [hw2, parseKV_stringifyKV]
    · simp only [loadBackgroundColor, hw1]
      simp [hw2, parseKV_stringifyKV, hc]

/-- A module row of the custom-modules API (`CustomModule` in
`src/utils/ct-types`); only the fields the control flow touches. -/
structure CustomModule : Type where
  id : Nat
  name : String
deriving DecidableEq, Repr

/-- An HTTP request the admin entry point issues through
`churchtoolsClient`. -/
inductive AdminRequest : Type where
  | get (path : String)
  | post (path : String)
deriving DecidableEq, Repr

/-- Whether a request is a POST (a creation request). -/
def AdminRequest.isPost : AdminRequest → Bool
  | AdminRequest.post _ => true
  | AdminRequest.get _ => false

/-- The error thrown outside development mode when the module is not
registered, verbatim from the source. -/
def notRegisteredMsg : String :=
  "Extension module not registered in ChurchTools. Please register it through ChurchTools admin first."

/-- Embedded from `getOrCreateExtensionModule` in the admin entry
point: tries GET /custommodules/KEY; if that fails, outside development
mode it throws `notRegisteredMsg` without creating anything, while in
development mode it creates the module via POST /custommodules.
`getResult` is the outcome of the GET call and `created` the module the
POST would return; the second component lists the requests issued, in
order. -/
def getOrCreateExtensionModule (mode key : String)
    (getResult : Except String CustomModule) (created : CustomModule) :
    Except String CustomModule × List AdminRequest :=
  match getResult with
  | Except.ok m => (Except.ok m, [AdminRequest.get ("/custommodules/" ++ key)])
  | Except.error _ =>
    if mode ≠ "development" then
      (Except.error notRegisteredMsg, [AdminRequest.get ("/custommodules/" ++ key)])
    else
      (Except.ok created,
       [AdminRequest.get ("/custommodules/" ++ key), AdminRequest.post "/custommodules"])

/-- C10: when the GET for the extension module fails and the build mode
is not development, `getOrCreateExtensionModule` throws the
not-registered error having issued no POST; and in general a POST is
issued only in development mode. -/
theorem no_module_creation_outside_dev (mode key : String)
    (g : Except String CustomModule) (created : CustomModule) (e : String)
    (hmode : mode ≠ "development") (hg : g = Except.error e) :
    (getOrCreateExtensionModule mode key g created).1 = Except.error notRegisteredMsg
    ∧ (∀ r ∈ (getOrCreateExtensionModule mode key g created).2, r.isPost = false)
    ∧ ∀ (m k : String) (g' : Except String CustomModule) (c' : CustomModule),
        (∃ r ∈ (getOrCreateExtensionModule m k g' c').2, r.isPost = true) →
          m = "development" := by
  subst hg
  refine ⟨?_, ?_, ?_⟩
  · simp [getOrCreateExtensionModule, hmode]
  · simp [getOrCreateExtensionModule, hmode, AdminRequest.isPost]
  · intro m k g' c' hex
    rcases g' with e' | m'
    · by_cases hm : m = "development"
      · exact hm
      · exfalso
        obtain ⟨r, hr, hpost⟩ := hex
        simp [getOrCreateExtensionModule, hm] at hr
        rw [hr] at hpost
        simp [AdminRequest.isPost] at hpost
    · exfalso
      obtain ⟨r, hr, hpost⟩ := hex
      simp [getOrCreateExtensionModule] at hr
      rw [hr] at hpost
      simp [AdminRequest.isPost] at hpost

/-- Witness for `throwing_handler_isolated`: a bus with a throwing
handler at position 0 and a second handler after it. -/
theorem throwing_handler_isolated_witness :
    0 ∈ (emitBus (Bus.mk [("x", Handler.mk 0 true), ("x", Handler.mk 1 false)]) "x" []).errors
    ∧ ∃ h', (dispatchList (Bus.mk [("x", Handler.mk 0 true), ("x", Handler.mk 1 false)]) "x").get? 1
          = some h'
        ∧ (emitBus (Bus.mk [("x", Handler.mk 0 true), ("x", Handler.mk 1 false)]) "x" []).invocations.get? 1
          = some (h'.hid, payloadAt (Bus.mk [("x", Handler.mk 0 true), ("x", Handler.mk 1 false)]) "x" [] 1) := by
  have h := throwing_handler_isolated
    (Bus.mk [("x", Handler.mk 0 true), ("x", Handler.mk 1 false)]) "x" [] 0 (by decide) (by decide)
  exact ⟨h.1, h.2 1 (by decide) (by decide)⟩

/-- Witness for `destroy_idempotent_cleanup_once`: a mounted instance
with a cleanup callback, destroyed twice. -/
theorem destroy_idempotent_cleanup_once_witness :
    (mount (EntryPointModel.mk false (some (Cleanup.mk 3 false)) [])).inst?
        = some (Instance.mk LifecycleState.Running (Bus.mk []) (some (Cleanup.mk 3 false)))
    ∧ (destroyTraces 2 (Instance.mk LifecycleState.Running (Bus.mk [])
        (some (Cleanup.mk 3 false)))).countP isInvokeStep = 1
    ∧ (destroy (destroyN 1 (Instance.mk LifecycleState.Running (Bus.mk [])
        (some (Cleanup.mk 3 false))))).2 = [] := by
  have h := destroy_idempotent_cleanup_once (EntryPointModel.mk false (some (Cleanup.mk 3 false)) [])
    (Cleanup.mk 3 false)
    (Instance.mk LifecycleState.Running (Bus.mk []) (some (Cleanup.mk 3 false)))
    (by decide) rfl 2 (by decide)
  exact ⟨by decide, h.1, h.2 1 (by decide)⟩

/-- Witness for `destroy_removes_handlers_before_cleanup`: a running
instance with one registered handler and a failing cleanup callback. -/
theorem destroy_removes_handlers_before_cleanup_witness :
    (Instance.mk LifecycleState.Running (Bus.mk [("e", Handler.mk 0 false)])
        (some (Cleanup.mk 5 true))).state = LifecycleState.Running
    ∧ ((destroy (Instance.mk LifecycleState.Running (Bus.mk [("e", Handler.mk 0 false)])
          (some (Cleanup.mk 5 true)))).2.take 2
        = [TeardownStep.removeHandlers, TeardownStep.invokeCleanup 5]
      ∧ (destroy (Instance.mk LifecycleState.Running (Bus.mk [("e", Handler.mk 0 false)])
          (some (Cleanup.mk 5 true)))).1.bus.registrations = []
      ∧ (destroy (Instance.mk LifecycleState.Running (Bus.mk [("e", Handler.mk 0 false)])
          (some (Cleanup.mk 5 true)))).1.state = LifecycleState.Destroyed
      ∧ (TeardownStep.reportCleanupError 5
          ∈ (destroy (Instance.mk LifecycleState.Running (Bus.mk [("e", Handler.mk 0 false)])
              (some (Cleanup.mk 5 true)))).2 ↔ (Cleanup.mk 5 true).fails = true)) :=
  ⟨rfl, destroy_removes_handlers_before_cleanup
    (Instance.mk LifecycleState.Running (Bus.mk [("e", Handler.mk 0 false)])
      (some (Cleanup.mk 5 true))) (Cleanup.mk 5 true) rfl rfl⟩

/-- Witness for `mount_activation_failure`: an entry point that throws
during invocation. -/
theorem mount_activation_failure_witness :
    (EntryPointModel.mk true none []).throwsOnInvoke = true
    ∧ (mount (EntryPointModel.mk true none [])).inst? = none
    ∧ (mount (EntryPointModel.mk true none [])).reportedActivationFailure = true := by
  have h := mount_activation_failure (EntryPointModel.mk true none []) rfl
  exact ⟨rfl, h.1, h.2⟩

/-- Witness for `off_removes_registration`: a bus with one registration
of handler 7 for event e, removed; and a no-op off of the unregistered
id 9. -/
theorem off_removes_registration_witness :
    regCount 7 (handlersFor (Bus.mk [("e", Handler.mk 7 false)]) "e") = 1
    ∧ invCount 7 (emitBus (offBus (Bus.mk [("e", Handler.mk 7 false)]) "e" 7) "e" []) = 0
    ∧ offBus (Bus.mk [("e", Handler.mk 7 false)]) "e" 9 = Bus.mk [("e", Handler.mk 7 false)] := by
  have h := off_removes_registration (Bus.mk [("e", Handler.mk 7 false)]) "e" 7 []
    (by decide) (Or.inr (by decide))
  exact ⟨by decide, h.1, h.2 "e" 9 (by decide)⟩

/-- Witness for `duplicate_registration_invoked_twice`: handler 5
registered twice for event e on an empty bus. -/
theorem duplicate_registration_invoked_twice_witness :
    ("e" : String) ≠ "*"
    ∧ regCount 5 (handlersFor (onBus (onBus (Bus.mk []) "e" (Handler.mk 5 false)) "e"
        (Handler.mk 5 false)) "e") = 2
    ∧ invCount 5 (emitBus (onBus (onBus (Bus.mk []) "e" (Handler.mk 5 false)) "e"
        (Handler.mk 5 false)) "e" [Val.num 1]) = 2 := by
  have h := duplicate_registration_invoked_twice (Bus.mk []) "e" (Handler.mk 5 false) [Val.num 1]
    (by decide) (by simp)
  exact ⟨by decide, h.1, h.2⟩

/-- Witness for `save_then_load_roundtrip`: an initialized admin state
with an empty store and the color #aabbcc. -/
theorem save_then_load_roundtrip_witness :
    ("#aabbcc" : String) ≠ ""
    ∧ storeConsistent (AdminState.mk (some 1) (some 2) none "#ffffff" []) = true
    ∧ ∃ st', saveBackgroundColor "#aabbcc" (AdminState.mk (some 1) (some 2) none "#ffffff" []) 9
          = Except.ok st'
        ∧ st'.backgroundColorValue.map CustomModuleDataValue.value
            = some (stringifyKV "backgroundColor" "#aabbcc")
        ∧ (loadBackgroundColor st').backgroundColorValue.map CustomModuleDataValue.value
            = some (stringifyKV "backgroundColor" "#aabbcc")
        ∧ (loadBackgroundColor st').currentBackgroundColor = "#aabbcc" := by
  have h := save_then_load_roundtrip (AdminState.mk (some 1) (some 2) none "#ffffff" [])
    "#aabbcc" 9 (by decide) rfl rfl (by decide)
  exact ⟨by decide, by decide, h⟩

/-- Witness for `no_module_creation_outside_dev`: a failed GET in
production mode. -/
theorem no_module_creation_outside_dev_witness :
    ("production" : String) ≠ "development"
    ∧ (getOrCreateExtensionModule "production" "demo" (Except.error "404")
        (CustomModule.mk 1 "m")).1 = Except.error notRegisteredMsg
    ∧ ∀ r ∈ (getOrCreateExtensionModule "production" "demo" (Except.error "404")
        (CustomModule.mk 1 "m")).2, r.isPost = false := by
  have h := no_module_creation_outside_dev "production" "demo" (Except.error "404")
    (CustomModule.mk 1 "m") "404" (by decide) rfl
  exact ⟨by decide, h.1, h.2.1⟩
